import Mathlib

/-!
Shallow embedding of the turn-based arcade game core
(`src/main.rs`, `src/collision_system.rs`) and proofs of the
specification claims about it.

Floating-point `Vec3` values are modelled as exact rational triples
(`Vec3Q`); all the arithmetic the claims touch (addition, subtraction,
halving, linear interpolation at the expiry fraction) is exact on the
values involved.  `i32` machine integers are modelled as `Int` with the
release-mode wrap-around (`wrapI32`) applied where the source performs
`i32` arithmetic or a `u32 as i32` cast.
-/

/-- Exact-rational model of `bevy::Vec3`. -/
structure Vec3Q where
  x : ℚ
  y : ℚ
  z : ℚ
deriving DecidableEq, Repr

namespace Vec3Q

/-- Componentwise addition (`glam` `Vec3 + Vec3`). -/
def add (a b : Vec3Q) : Vec3Q := ⟨a.x + b.x, a.y + b.y, a.z + b.z⟩

/-- Componentwise subtraction. -/
def sub (a b : Vec3Q) : Vec3Q := ⟨a.x - b.x, a.y - b.y, a.z - b.z⟩

/-- Componentwise absolute value (`Vec3::abs`). -/
def abs (a : Vec3Q) : Vec3Q := ⟨|a.x|, |a.y|, |a.z|⟩

/-- Scalar multiplication. -/
def smul (q : ℚ) (a : Vec3Q) : Vec3Q := ⟨q * a.x, q * a.y, q * a.z⟩

/-- Division by two, used by `center`/`half_extents`. -/
def half (a : Vec3Q) : Vec3Q := ⟨a.x / 2, a.y / 2, a.z / 2⟩

/-- Model of `glam` `Vec3::lerp`: `self + (rhs - self) * s`. -/
def lerp (a b : Vec3Q) (s : ℚ) : Vec3Q := a.add (smul s (b.sub a))

end Vec3Q

/-- Model of `LLAabb3d` from `src/collision_system.rs`: a 3D axis-aligned
bounding box held as its `min` and `max` corners. -/
structure LLAabb3d where
  min : Vec3Q
  max : Vec3Q
deriving DecidableEq, Repr

namespace LLAabb3d

/-- Source `LLAabb3d::new(center, half_extents)`: the half-extents are made
non-negative componentwise before the corners are computed. -/
def new (center halfExtents : Vec3Q) : LLAabb3d :=
  let p := halfExtents.abs
  ⟨center.sub p, center.add p⟩

/-- Source `LLAabb3d::intersects`: inclusive per-axis interval overlap. -/
def intersects (a b : LLAabb3d) : Bool :=
  (a.min.x ≤ b.max.x && a.max.x ≥ b.min.x) &&
  (a.min.y ≤ b.max.y && a.max.y ≥ b.min.y) &&
  (a.min.z ≤ b.max.z && a.max.z ≥ b.min.z)

/-- Source `LLAabb3d::center`. -/
def center (a : LLAabb3d) : Vec3Q := (a.min.add a.max).half

/-- Source `LLAabb3d::extents`. -/
def extents (a : LLAabb3d) : Vec3Q := a.max.sub a.min

/-- Source `LLAabb3d::half_extents`. -/
def half_extents (a : LLAabb3d) : Vec3Q := (a.max.sub a.min).half

/-- Source `LLAabb3d::update_center`: recompute the corners around a new
center, preserving the half-extents. -/
def update_center (a : LLAabb3d) (newCenter : Vec3Q) : LLAabb3d :=
  let h := a.half_extents
  ⟨newCenter.sub h, newCenter.add h⟩

end LLAabb3d

/-- C9: `LLAabb3d::intersects` returns `true` exactly when on each of
the three axes `min_a ≤ max_b` and `max_a ≥ min_b` (inclusive), so
boxes touching at a face, edge or corner intersect and degenerate
(point) boxes test correctly; and a positive gap on any single axis
makes the test `false`. -/
theorem claim_C9_intersects_iff_axis_overlap (a b : LLAabb3d) :
    (a.intersects b = true ↔
      ((a.min.x ≤ b.max.x ∧ a.max.x ≥ b.min.x) ∧
       (a.min.y ≤ b.max.y ∧ a.max.y ≥ b.min.y) ∧
       (a.min.z ≤ b.max.z ∧ a.max.z ≥ b.min.z))) ∧
    ((a.max.x < b.min.x ∨ b.max.x < a.min.x ∨
      a.max.y < b.min.y ∨ b.max.y < a.min.y ∨
      a.max.z < b.min.z ∨ b.max.z < a.min.z) →
      a.intersects b = false) := by
  constructor
  · simp [LLAabb3d.intersects, and_assoc]
  · intro h
    simp only [LLAabb3d.intersects, Bool.and_eq_false_iff]
    rcases h with h | h | h | h | h | h
    all_goals simp [not_le.mpr h, le_of_lt h]

/-- Witness for C9 at concrete boxes: the unit box at the origin and
the unit box touching it at the face `x = 1` intersect, while a box
shifted by a positive gap on the x axis does not. -/
theorem claim_C9_witness :
    LLAabb3d.intersects ⟨⟨0, 0, 0⟩, ⟨1, 1, 1⟩⟩ ⟨⟨1, 0, 0⟩, ⟨2, 1, 1⟩⟩ = true ∧
    LLAabb3d.intersects ⟨⟨0, 0, 0⟩, ⟨1, 1, 1⟩⟩ ⟨⟨(3 : ℚ)/2, 0, 0⟩, ⟨2, 1, 1⟩⟩ = false := by
  refine ⟨?_, ?_⟩
  · exact (claim_C9_intersects_iff_axis_overlap _ _).1.mpr (by norm_num)
  · exact (claim_C9_intersects_iff_axis_overlap _ _).2 (by norm_num)

/-- Release-mode `i32` wrap-around: the representative of `n` in
`[-2^31, 2^31)`.  Used both for `i32` addition overflow and for the
`u32 as i32` cast. -/
def wrapI32 (n : ℤ) : ℤ := (n + 2 ^ 31) % 2 ^ 32 - 2 ^ 31

/-- The `u32 as i32` cast (`board_size_x as i32` in the source). -/
def u32AsI32 (n : ℕ) : ℤ := wrapI32 n

theorem wrapI32_eq_self {n : ℤ} (h0 : -2 ^ 31 ≤ n) (h1 : n < 2 ^ 31) :
    wrapI32 n = n := by
  unfold wrapI32
  omega

/-- Integer 3-vector (`bevy::IVec3`, componentwise `i32`). -/
structure IVec3 where
  x : ℤ
  y : ℤ
  z : ℤ
deriving DecidableEq, Repr

/-- Addition `IVec3 + IVec3` with release-mode `i32` wrap-around per component. -/
def IVec3.addWrap (a b : IVec3) : IVec3 :=
  ⟨wrapI32 (a.x + b.x), wrapI32 (a.y + b.y), wrapI32 (a.z + b.z)⟩

/-- The `Direction` enum from `src/main.rs`. -/
inductive Direction where
  | None
  | North
  | East
  | South
  | West
deriving DecidableEq, Repr

/-- Source `Direction::value`: the unit integer displacement (`DIST = 1`). -/
def Direction.value : Direction → IVec3
  | .North => ⟨0, 0, 1⟩
  | .East => ⟨1, 0, 0⟩
  | .South => ⟨0, 0, -1⟩
  | .West => ⟨-1, 0, 0⟩
  | .None => ⟨0, 0, 0⟩

/-- Model of `LogSequence` from `src/main.rs`: the per-level spawn schedule with
its 8-entry parallel tables (`SEQUENCE_LENGTH = 8`). -/
structure LogSequence where
  log_sequence_nth_step : Fin 8 → ℕ
  log_sequence_step_length : ℕ
  spawn_offset_x : Fin 8 → ℤ
  spawn_offset_z : Fin 8 → ℤ
  spawn_offset_x_base : ℤ
  sequence_index : ℕ
  sequence_step_counter : ℕ

/-- Source `LogSequence::seq_idx`: `step as usize % 8` (the table length is
fixed at `SEQUENCE_LENGTH = 8`). -/
def LogSequence.seq_idx (_s : LogSequence) (step : ℕ) : ℕ := step % 8

/-- Model of `Level` from `src/main.rs`: sequences plus the bird map.  The
`HashMap<IVec3, Entity>` is modelled as an association list whose keys
are unique (`Entity` ids are modelled as `ℕ`). -/
structure Level where
  seq : List LogSequence
  bird_map : List (IVec3 × ℕ)

/-- Model of `Game` from `src/main.rs` (`board_size_*` are `u32`, positions are
`IVec3`). -/
structure Game where
  board_size_x : ℕ
  board_size_y : ℕ
  start : ℤ × ℤ
  player_pos : IVec3
  current_step : ℕ
  current_level : ℕ
  levels : List Level
  bevy_count : ℕ

/-- Source `Game::is_valid_player_move`: apply the direction delta to the
player position, then require `0 ≤ x < board_size_x as i32` and
`0 ≤ z < board_size_y as i32` (else log and return `false`). -/
def Game.is_valid_player_move (g : Game) (dir : Direction) : Bool :=
  let pos := g.player_pos.addWrap dir.value
  if 0 ≤ pos.x ∧ pos.x < u32AsI32 g.board_size_x ∧
     0 ≤ pos.z ∧ pos.z < u32AsI32 g.board_size_y then
    true
  else
    false

/-- Source `Game::is_valid_board_pos`: apply the direction delta to the given
position, then require `-1 < x ≤ board_size_x as i32` and
`-1 < z ≤ board_size_y as i32` (else log and return `false`). -/
def Game.is_valid_board_pos (g : Game) (pos : IVec3) (dir : Direction) : Bool :=
  let pos := pos.addWrap dir.value
  if -1 < pos.x ∧ pos.x ≤ u32AsI32 g.board_size_x ∧
     -1 < pos.z ∧ pos.z ≤ u32AsI32 g.board_size_y then
    true
  else
    false

/-- First `LogSequence` of the default level (`spawn_offset_x_base =
LOG1_OFFSET_X = 2`). -/
def logSeq1 : LogSequence where
  log_sequence_nth_step := ![1, 0, 1, 1, 1, 0, 0, 0]
  log_sequence_step_length := 2
  spawn_offset_x := ![0, 1, 0, 0, 1, 0, 0, 0]
  spawn_offset_z := ![0, 1, 0, 0, 0, 0, 0, 0]
  spawn_offset_x_base := 2
  sequence_index := 0
  sequence_step_counter := 0

/-- Second `LogSequence` of the default level (`LOG2_OFFSET_X = 6`). -/
def logSeq2 : LogSequence where
  log_sequence_nth_step := ![0, 1, 1, 0, 1, 0, 0, 0]
  log_sequence_step_length := 2
  spawn_offset_x := ![0, 1, 0, 0, 1, 0, 0, 0]
  spawn_offset_z := ![0, 0, 0, 0, 0, 0, 0, 0]
  spawn_offset_x_base := 6
  sequence_index := 0
  sequence_step_counter := 0

/-- Third `LogSequence` of the default level (`LOG3_OFFSET_X = 10`). -/
def logSeq3 : LogSequence where
  log_sequence_nth_step := ![1, 0, 1, 1, 0, 1, 0, 1]
  log_sequence_step_length := 2
  spawn_offset_x := ![0, 0, 0, 0, 0, 0, 0, 0]
  spawn_offset_z := ![0, 0, 1, 0, 0, 0, 0, 0]
  spawn_offset_x_base := 10
  sequence_index := 0
  sequence_step_counter := 0

/-- Constant `BIRD_Y = 2`: the fixed bird-layer elevation. -/
def BIRD_Y : ℤ := 2

/-- The single level of `Game::default()`: three log sequences and
three birds (all mapped to `Entity::PLACEHOLDER`, modelled as id
`0`). -/
def defaultLevel : Level where
  seq := [logSeq1, logSeq2, logSeq3]
  bird_map := [(⟨7, BIRD_Y, 2⟩, 0), (⟨8, BIRD_Y, 7⟩, 0), (⟨3, BIRD_Y, 5⟩, 0)]

/-- Source `Game::default()`: 12x12 board, player at `(3, 0, 0)`, one level. -/
def Game.default : Game where
  board_size_x := 12
  board_size_y := 12
  start := (3, 0)
  player_pos := ⟨3, 0, 0⟩
  current_step := 0
  current_level := 0
  levels := [defaultLevel]
  bevy_count := 0

theorem ite_true_false_eq_true {P : Prop} [Decidable P] :
    (if P then true else false) = true ↔ P := by
  split <;> simp_all

/-- A game differing from the default only in its `u32` board width,
`board_size_x = 2^31`, whose `as i32` cast wraps to `-2^31`. -/
def hugeBoardGame : Game := { Game.default with board_size_x := 2 ^ 31 }

/-- Counterexample to C1 as stated: with board size `Sx = 2^31` (a
valid `u32`), the staying-put move from `(3, 0, 0)` has its post-move
position inside `[0, Sx) x [0, Sz)`, yet `is_valid_player_move`
returns `false`, because the source compares against
`board_size_x as i32 = -2^31`. -/
theorem claim_C1_counterexample :
    hugeBoardGame.is_valid_player_move Direction.None = false ∧
    0 ≤ hugeBoardGame.player_pos.x + (Direction.None).value.x ∧
    hugeBoardGame.player_pos.x + (Direction.None).value.x < (hugeBoardGame.board_size_x : ℤ) ∧
    0 ≤ hugeBoardGame.player_pos.z + (Direction.None).value.z ∧
    hugeBoardGame.player_pos.z + (Direction.None).value.z < (hugeBoardGame.board_size_y : ℤ) := by
  refine ⟨?_, by decide, by decide, by decide, by decide⟩
  decide

/-- C1 (amended): provided the board sizes fit in `i32`
(`Sx, Sz < 2^31`) and the componentwise post-move sums do not overflow
`i32`, `is_valid_player_move` accepts exactly the half-open range
`[0, Sx) x [0, Sz)` and `is_valid_board_pos` accepts exactly the
closed range `[0, Sx] x [0, Sz]`; both are total and return `false`
outside those ranges. -/
theorem claim_C1_board_validity (g : Game) (d : Direction) (p : IVec3)
    (hsx : g.board_size_x < 2 ^ 31) (hsy : g.board_size_y < 2 ^ 31)
    (hmx : -2 ^ 31 ≤ g.player_pos.x + d.value.x ∧ g.player_pos.x + d.value.x < 2 ^ 31)
    (hmz : -2 ^ 31 ≤ g.player_pos.z + d.value.z ∧ g.player_pos.z + d.value.z < 2 ^ 31)
    (hpx : -2 ^ 31 ≤ p.x + d.value.x ∧ p.x + d.value.x < 2 ^ 31)
    (hpz : -2 ^ 31 ≤ p.z + d.value.z ∧ p.z + d.value.z < 2 ^ 31) :
    (g.is_valid_player_move d = true ↔
      (0 ≤ g.player_pos.x + d.value.x ∧
       g.player_pos.x + d.value.x < (g.board_size_x : ℤ) ∧
       0 ≤ g.player_pos.z + d.value.z ∧
       g.player_pos.z + d.value.z < (g.board_size_y : ℤ))) ∧
    (g.is_valid_board_pos p d = true ↔
      (0 ≤ p.x + d.value.x ∧
       p.x + d.value.x ≤ (g.board_size_x : ℤ) ∧
       0 ≤ p.z + d.value.z ∧
       p.z + d.value.z ≤ (g.board_size_y : ℤ))) := by
  have hBx : u32AsI32 g.board_size_x = (g.board_size_x : ℤ) := by
    unfold u32AsI32 wrapI32; omega
  have hBy : u32AsI32 g.board_size_y = (g.board_size_y : ℤ) := by
    unfold u32AsI32 wrapI32; omega
  constructor
  · have hx := wrapI32_eq_self hmx.1 hmx.2
    have hz := wrapI32_eq_self hmz.1 hmz.2
    simp only [Game.is_valid_player_move, IVec3.addWrap, hx, hz, hBx, hBy,
      ite_true_false_eq_true]
  · have hx := wrapI32_eq_self hpx.1 hpx.2
    have hz := wrapI32_eq_self hpz.1 hpz.2
    simp only [Game.is_valid_board_pos, IVec3.addWrap, hx, hz, hBx, hBy,
      ite_true_false_eq_true]
    omega

/-- Witness for C1 on the default 12x12 game: the move north from
`(3, 0, 0)` is accepted, and the hazard position `(12, 0, 11)` moving
north lands on `(12, 0, 12)` (one unit past the player's bound on both
axes), which is still a valid board position. -/
theorem claim_C1_witness :
    Game.default.is_valid_player_move Direction.North = true ∧
    Game.default.is_valid_board_pos ⟨12, 0, 11⟩ Direction.North = true := by
  have h := claim_C1_board_validity Game.default Direction.North ⟨12, 0, 11⟩
    (by decide) (by decide) (by decide) (by decide) (by decide) (by decide)
  exact ⟨h.1.mpr (by decide), h.2.mpr (by decide)⟩

/-- The `GameState` sub-state machine from `src/main.rs`. -/
inductive GameState where
  | PlayerIdle
  | PlayerActionInProgress
  | GameTurnInProgress
  | PlayerFinishingJump
  | Paused
deriving DecidableEq, Repr

/-- Source `toggle_pause`, on a pause-toggle input: from `Paused`, resume to
the memoised previous state (clearing the one-slot memo via `take()`),
falling back to `PlayerIdle` when the memo is empty; from any other
state, store that state in the memo and enter `Paused`. -/
def toggle_pause (current : GameState) (prev : Option GameState) :
    GameState × Option GameState :=
  match current with
  | .Paused =>
    match prev with
    | some p => (p, none)
    | none => (.PlayerIdle, none)
  | other => (.Paused, some other)

/-- C7: from every non-`Paused` turn state `s`, a pause toggle stores
`s` in the one-slot memo and enters `Paused`, and a second toggle
returns to exactly `s` with the memo cleared — pause followed by
resume is the identity on the turn state. -/
theorem claim_C7_pause_roundtrip (s : GameState) (m : Option GameState)
    (hs : s ≠ GameState.Paused) :
    (toggle_pause s m).1 = GameState.Paused ∧
    (toggle_pause s m).2 = some s ∧
    toggle_pause (toggle_pause s m).1 (toggle_pause s m).2 = (s, none) := by
  cases s <;> simp_all [toggle_pause]

/-- Witness for C7 at the concrete state `GameTurnInProgress` with an
empty memo. -/
theorem claim_C7_witness :
    (toggle_pause GameState.GameTurnInProgress none).1 = GameState.Paused ∧
    (toggle_pause GameState.GameTurnInProgress none).2 = some GameState.GameTurnInProgress ∧
    toggle_pause (toggle_pause GameState.GameTurnInProgress none).1
        (toggle_pause GameState.GameTurnInProgress none).2 =
      (GameState.GameTurnInProgress, none) :=
  claim_C7_pause_roundtrip GameState.GameTurnInProgress none (by decide)

/-- The `GameObjectType` classification tag from `src/main.rs`. -/
inductive GameObjectType where
  | Player
  | Log
  | Rock
deriving DecidableEq, Repr

/-- Model of `CollisionEvent` from `src/collision_system.rs`. -/
inductive CollisionEvent where
  | PlayerLog
deriving DecidableEq, Repr

/-- One entity as seen by `collision_detection_system`: a
classification tag together with its AABB. -/
structure TaggedAabb where
  got : GameObjectType
  aabb : LLAabb3d

/-- The events `collision_detection_system` writes for one unordered
pair drawn by `iter_combinations`: inside the
`intersects && got_a != got_b` branch, one event per `Player`-tagged
member of the pair. -/
def pairEvents (a b : TaggedAabb) : List CollisionEvent :=
  if a.aabb.intersects b.aabb ∧ a.got ≠ b.got then
    (match a.got with
      | GameObjectType.Player => [CollisionEvent.PlayerLog]
      | _ => []) ++
    (match b.got with
      | GameObjectType.Player => [CollisionEvent.PlayerLog]
      | _ => [])
  else []

/-- The ordered pairs `iter_combinations` draws from a query result:
each unordered pair of distinct entities exactly once. -/
def allPairs : List α → List (α × α)
  | [] => []
  | x :: xs => xs.map (fun y => (x, y)) ++ allPairs xs

/-- Source `collision_detection_system`: scan every combination of two tagged
entities and collect the emitted collision events. -/
def collision_detection_system (objs : List TaggedAabb) : List CollisionEvent :=
  (allPairs objs).flatMap fun p => pairEvents p.1 p.2

theorem pairEvents_length_le_one (a b : TaggedAabb) : (pairEvents a b).length ≤ 1 := by
  unfold pairEvents
  split
  · next h => cases ha : a.got <;> cases hb : b.got <;> simp_all
  · simp

/-- C10: in one pass of the pairwise scan, each unordered pair emits at
most one collision event; a pair emits an event exactly when the AABBs
intersect, the tags differ and one member is `Player`-classified (so
no pair can emit two), and the whole pass emits no more events than
there are pairs. -/
theorem claim_C10_at_most_one_event_per_pair (a b : TaggedAabb) (objs : List TaggedAabb) :
    (pairEvents a b).length ≤ 1 ∧
    ((pairEvents a b).length = 1 ↔
      (a.aabb.intersects b.aabb = true ∧ a.got ≠ b.got ∧
        (a.got = GameObjectType.Player ∨ b.got = GameObjectType.Player))) ∧
    (collision_detection_system objs).length ≤ (allPairs objs).length := by
  refine ⟨pairEvents_length_le_one a b, ?_, ?_⟩
  · unfold pairEvents
    split
    · next h => cases ha : a.got <;> cases hb : b.got <;> simp_all
    · next h => simp; intro h1 h2; exact absurd ⟨h1, h2⟩ h
  · unfold collision_detection_system
    generalize allPairs objs = l
    induction l with
    | nil => simp
    | cons p l ih =>
      simp only [List.flatMap_cons, List.length_append, List.length_cons]
      have := pairEvents_length_le_one p.1 p.2
      omega

/-- Witness for C10: a Player box overlapping a Log box emits exactly
one event, and the single-pair pass over those two entities emits one
event for one pair. -/
theorem claim_C10_witness :
    (pairEvents ⟨GameObjectType.Player, ⟨⟨0, 0, 0⟩, ⟨1, 1, 1⟩⟩⟩
      ⟨GameObjectType.Log, ⟨⟨0, 0, 0⟩, ⟨1, 1, 1⟩⟩⟩).length = 1 :=
  (claim_C10_at_most_one_event_per_pair _ _ []).2.1.mpr
    ⟨by decide, by decide, Or.inl rfl⟩

/-- Constant `TILE_SIZE = 1.0`. -/
def TILE_SIZE : ℚ := 1

/-- Constant `TILE_HALF_SIZE = 0.5`. -/
def TILE_HALF_SIZE : ℚ := 1 / 2

/-- The mod-8 sequence index as a `Fin 8`. -/
def stepIdxF (step : ℕ) : Fin 8 := ⟨step % 8, Nat.mod_lt step (by norm_num)⟩

/-- Source `LogSequence::get_spawn_offset_x`:
`spawn_offset_x_base + spawn_offset_x[sequence_index]` (an `i32`
addition); `none` models the panic of an out-of-range
`sequence_index`. -/
def LogSequence.get_spawn_offset_x (s : LogSequence) : Option ℤ :=
  if h : s.sequence_index < 8 then
    some (wrapI32 (s.spawn_offset_x_base + s.spawn_offset_x ⟨s.sequence_index, h⟩))
  else none

/-- Source `LogSequence::get_spawn_offset_z`: `spawn_offset_z[sequence_index]`;
`none` models the panic of an out-of-range `sequence_index`. -/
def LogSequence.get_spawn_offset_z (s : LogSequence) : Option ℤ :=
  if h : s.sequence_index < 8 then some (s.spawn_offset_z ⟨s.sequence_index, h⟩)
  else none

/-- One hazard entity as spawned by `spawn_logs`: its translation, its
scale, its AABB, and its classification tag. -/
structure SpawnedLog where
  translation : Vec3Q
  scale : Vec3Q
  aabb : LLAabb3d
  got : GameObjectType
deriving DecidableEq, Repr

/-- The body of the `spawn_logs` loop for one `LogSequence`: compute
`seq_idx = step % 8`; if the nth-step table entry there is positive,
update `sequence_index` and spawn one Log-tagged hazard at
`(get_spawn_offset_x - TILE_HALF_SIZE, TILE_HALF_SIZE * 0.5,
board_size_y - get_spawn_offset_z)` with a matching AABB; `none`
models an index panic. -/
def spawnForSeq (board_size_y step : ℕ) (s : LogSequence) :
    Option (LogSequence × Option SpawnedLog) :=
  let idx := s.seq_idx step
  if h : idx < 8 then
    if s.log_sequence_nth_step ⟨idx, h⟩ > 0 then
      let s' := { s with sequence_index := idx }
      match s'.get_spawn_offset_x, s'.get_spawn_offset_z with
      | some offx, some offz =>
        let top : ℚ := (board_size_y : ℚ) - (offz : ℚ)
        let logCenter : Vec3Q := ⟨(offx : ℚ) - TILE_HALF_SIZE, TILE_HALF_SIZE * (1/2), top⟩
        some (s', some
          { translation := logCenter
            scale := ⟨TILE_SIZE * 2, TILE_HALF_SIZE, TILE_HALF_SIZE⟩
            aabb := LLAabb3d.new logCenter
              ⟨TILE_SIZE * 2, TILE_HALF_SIZE * (1/2), TILE_HALF_SIZE * (1/2)⟩
            got := GameObjectType.Log })
      | _, _ => none
    else some (s, none)
  else none

/-- The `spawn_logs` iteration over all sequences of the active level:
returns the updated sequences and the hazards spawned this step. -/
def spawnSeqs (board_size_y step : ℕ) :
    List LogSequence → Option (List LogSequence × List SpawnedLog)
  | [] => some ([], [])
  | s :: rest =>
    match spawnForSeq board_size_y step s, spawnSeqs board_size_y step rest with
    | some (s', log?), some (rest', logs) => some (s' :: rest', log?.toList ++ logs)
    | _, _ => none

/-- Source `spawn_logs` itself: look up the active level (`none` models the
`levels[current_level]` panic), run the per-sequence loop, and store
the updated sequences back into the game. -/
def spawn_logs (g : Game) : Option (Game × List SpawnedLog) :=
  match g.levels.get? g.current_level with
  | none => none
  | some lvl =>
    match spawnSeqs g.board_size_y g.current_step lvl.seq with
    | none => none
    | some (seqs', logs) =>
      some ({ g with levels := g.levels.set g.current_level { lvl with seq := seqs' } }, logs)

theorem spawnForSeq_pos (bsy step : ℕ) (s : LogSequence)
    (h : s.log_sequence_nth_step (stepIdxF step) > 0) :
    spawnForSeq bsy step s =
      some ({ s with sequence_index := step % 8 }, some
        { translation := ⟨((wrapI32 (s.spawn_offset_x_base + s.spawn_offset_x (stepIdxF step)) : ℤ) : ℚ) - TILE_HALF_SIZE,
            TILE_HALF_SIZE * (1/2),
            (bsy : ℚ) - ((s.spawn_offset_z (stepIdxF step) : ℤ) : ℚ)⟩
          scale := ⟨TILE_SIZE * 2, TILE_HALF_SIZE, TILE_HALF_SIZE⟩
          aabb := LLAabb3d.new
            ⟨((wrapI32 (s.spawn_offset_x_base + s.spawn_offset_x (stepIdxF step)) : ℤ) : ℚ) - TILE_HALF_SIZE,
              TILE_HALF_SIZE * (1/2),
              (bsy : ℚ) - ((s.spawn_offset_z (stepIdxF step) : ℤ) : ℚ)⟩
            ⟨TILE_SIZE * 2, TILE_HALF_SIZE * (1/2), TILE_HALF_SIZE * (1/2)⟩
          got := GameObjectType.Log }) := by
  have h8 : step % 8 < 8 := Nat.mod_lt step (by norm_num)
  simp only [spawnForSeq, LogSequence.seq_idx, LogSequence.get_spawn_offset_x,
    LogSequence.get_spawn_offset_z, stepIdxF] at h ⊢
  rw [dif_pos h8, if_pos h, dif_pos h8, dif_pos h8]

theorem spawnForSeq_zero (bsy step : ℕ) (s : LogSequence)
    (h : ¬ s.log_sequence_nth_step (stepIdxF step) > 0) :
    spawnForSeq bsy step s = some (s, none) := by
  have h8 : step % 8 < 8 := Nat.mod_lt step (by norm_num)
  simp only [spawnForSeq, LogSequence.seq_idx, stepIdxF] at h ⊢
  rw [dif_pos h8, if_neg h]

/-- C2: for every turn-counter value and every sequence list, the spawn
step never panics; exactly the sequences whose nth-step table entry at
`idx = step % 8` is nonzero spawn one Log-classified hazard (setting
that sequence's current index to `idx`) at position
`(base_x_offset + x_offset_table[idx] - 1/2, 1/4,
board_size_y - z_offset_table[idx])`, scaled `(2, 1/2, 1/2)` with an
AABB of half-extents `(2, 1/4, 1/4)` around that position; sequences
with a zero entry spawn nothing and are unchanged; and `step % 8 < 8`
for every turn counter. -/
theorem claim_C2_spawn_step (bsy step : ℕ) (seqs : List LogSequence) :
    spawnSeqs bsy step seqs =
      some (seqs.map fun s =>
          if s.log_sequence_nth_step (stepIdxF step) > 0 then
            { s with sequence_index := step % 8 }
          else s,
        seqs.filterMap fun s =>
          if s.log_sequence_nth_step (stepIdxF step) > 0 then
            some { translation :=
                     ⟨((wrapI32 (s.spawn_offset_x_base + s.spawn_offset_x (stepIdxF step)) : ℤ) : ℚ) - 1/2,
                       1/4, (bsy : ℚ) - ((s.spawn_offset_z (stepIdxF step) : ℤ) : ℚ)⟩
                   scale := ⟨2, 1/2, 1/2⟩
                   aabb := LLAabb3d.new
                     ⟨((wrapI32 (s.spawn_offset_x_base + s.spawn_offset_x (stepIdxF step)) : ℤ) : ℚ) - 1/2,
                       1/4, (bsy : ℚ) - ((s.spawn_offset_z (stepIdxF step) : ℤ) : ℚ)⟩
                     ⟨2, 1/4, 1/4⟩
                   got := GameObjectType.Log }
          else none) ∧
    step % 8 < 8 := by
  constructor
  · induction seqs with
    | nil => simp [spawnSeqs]
    | cons s rest ih =>
      by_cases h : s.log_sequence_nth_step (stepIdxF step) > 0
      · simp only [spawnSeqs, spawnForSeq_pos bsy step s h, ih, List.map_cons,
          List.filterMap_cons, if_pos h, Option.toList_some]
        norm_num [TILE_HALF_SIZE, TILE_SIZE]
      · simp only [spawnSeqs, spawnForSeq_zero bsy step s h, ih, List.map_cons,
          List.filterMap_cons, if_neg h, Option.toList_none, List.nil_append]
  · exact Nat.mod_lt step (by norm_num)

/-- The top-level `AppState` from `src/main.rs`. -/
inductive AppState where
  | AssetLoading
  | InGame
  | EndGame
  | WinGame
deriving DecidableEq, Repr

/-- Operation `HashMap::get` on the bird map: the value stored under key `k`. -/
def lookupBird (m : List (IVec3 × ℕ)) (k : IVec3) : Option ℕ :=
  (m.find? fun q => q.1 == k).map Prod.snd

/-- Operation `HashMap::remove` on the bird map: drop the (unique) entry with
key `k`. -/
def removeBird (m : List (IVec3 × ℕ)) (k : IVec3) : List (IVec3 × ℕ) :=
  m.eraseP fun q => q.1 == k

/-- Source `increment_bevy` (the `PlayerBirdRescueEvent` observer): increment
the rescue counter and report whether the active level's bird map is
now empty — which triggers `GameEvent::Win` and hence the `WinGame`
transition.  `none` models the `levels[current_level]` panic. -/
def increment_bevy (g : Game) : Option (Game × Bool) :=
  match g.levels.get? g.current_level with
  | none => none
  | some lvl => some ({ g with bevy_count := g.bevy_count + 1 }, lvl.bird_map.isEmpty)

/-- Source `player_check_for_bird` (run on exit from
`PlayerActionInProgress`), composed with the observers it triggers:
when the tracker says the player is jumping, pin the player's grid
cell to the bird elevation `BIRD_Y`, try to remove it from the bird
map, and on a hit fire the rescue event (`increment_bevy`), which
requests the `WinGame` transition when the map is then empty.
Returns `(game', rescued?, requested app state)`; `none` models the
`levels[current_level]` panic. -/
def player_check_for_bird (g : Game) (playerCell : IVec3) (is_jumping : Bool) :
    Option (Game × Bool × Option AppState) :=
  if is_jumping then
    match g.levels.get? g.current_level with
    | none => none
    | some lvl =>
      let pos : IVec3 := ⟨playerCell.x, BIRD_Y, playerCell.z⟩
      match lookupBird lvl.bird_map pos with
      | some _e =>
        let g1 := { g with
          levels := g.levels.set g.current_level
            { lvl with bird_map := removeBird lvl.bird_map pos } }
        match increment_bevy g1 with
        | none => none
        | some (g2, win) =>
          some (g2, true, if win then some AppState.WinGame else none)
      | none => some (g, false, none)
  else some (g, false, none)

theorem lookupBird_removeBird_self {m : List (IVec3 × ℕ)} {k : IVec3}
    (hnd : (m.map Prod.fst).Nodup) :
    lookupBird (removeBird m k) k = none := by
  unfold lookupBird removeBird
  rw [Option.map_eq_none', List.find?_eq_none]
  induction m with
  | nil => simp
  | cons p m ih =>
    simp only [List.map_cons, List.nodup_cons] at hnd
    by_cases hk : p.1 = k
    · rw [List.eraseP_cons_of_pos (by simp [hk])]
      intro q hq
      simp only [beq_iff_eq]
      intro hq1
      have : q.1 ∈ List.map Prod.fst m := List.mem_map_of_mem Prod.fst hq
      rw [hq1, ← hk] at this
      exact hnd.1 this
    · rw [List.eraseP_cons_of_neg (by simp [hk])]
      intro q hq
      rcases List.mem_cons.mp hq with rfl | hq
      · simp [hk]
      · exact ih hnd.2 q hq

/-- C3: after a jump action completes (`is_jumping = true`), if the
player's grid cell pinned to the bird elevation `y = BIRD_Y` is a key
of the (unique-keyed) bird map, the entry is removed destructively (a
second lookup at the same cell misses), the rescue counter increments
by exactly 1, and the `WinGame` transition is requested in that same
step exactly when the map is then empty; if the cell is not a key,
the game (bird map and rescue counter included) is unchanged. -/
theorem claim_C3_bird_rescue (g : Game) (cell : IVec3) (lvl : Level)
    (hlvl : g.levels.get? g.current_level = some lvl)
    (hnd : (lvl.bird_map.map Prod.fst).Nodup) :
    (∀ e, lookupBird lvl.bird_map ⟨cell.x, BIRD_Y, cell.z⟩ = some e →
      player_check_for_bird g cell true =
        some ({ g with
            levels := g.levels.set g.current_level
              { lvl with bird_map := removeBird lvl.bird_map ⟨cell.x, BIRD_Y, cell.z⟩ }
            bevy_count := g.bevy_count + 1 },
          true,
          if (removeBird lvl.bird_map ⟨cell.x, BIRD_Y, cell.z⟩).isEmpty then
            some AppState.WinGame
          else none) ∧
      lookupBird (removeBird lvl.bird_map ⟨cell.x, BIRD_Y, cell.z⟩)
        ⟨cell.x, BIRD_Y, cell.z⟩ = none) ∧
    (lookupBird lvl.bird_map ⟨cell.x, BIRD_Y, cell.z⟩ = none →
      player_check_for_bird g cell true = some (g, false, none)) := by
  constructor
  · intro e he
    refine ⟨?_, lookupBird_removeBird_self hnd⟩
    have hset : (g.levels.set g.current_level
        { lvl with bird_map := removeBird lvl.bird_map ⟨cell.x, BIRD_Y, cell.z⟩ }).get?
          g.current_level =
        some { lvl with bird_map := removeBird lvl.bird_map ⟨cell.x, BIRD_Y, cell.z⟩ } := by
      rw [List.get?_set_eq, hlvl]
      rfl
    simp only [player_check_for_bird, hlvl, he, increment_bevy, hset, if_true]
  · intro he
    simp only [player_check_for_bird, hlvl, he, if_true]

/-- Witness for C3 on the default game: jumping onto cell `(7, _, 2)`
removes the bird at `(7, 2, 2)` (a second lookup misses), bumps the
rescue counter from 0 to 1 and, the map not yet being empty, requests
no `WinGame` transition; jumping onto `(6, _, 2)` changes nothing. -/
theorem claim_C3_witness :
    player_check_for_bird Game.default ⟨7, 0, 2⟩ true =
      some ({ Game.default with
          levels := [{ defaultLevel with
            bird_map := removeBird defaultLevel.bird_map ⟨7, BIRD_Y, 2⟩ }]
          bevy_count := 1 },
        true, none) ∧
    lookupBird (removeBird defaultLevel.bird_map ⟨7, BIRD_Y, 2⟩) ⟨7, BIRD_Y, 2⟩ = none ∧
    player_check_for_bird Game.default ⟨6, 0, 2⟩ true =
      some (Game.default, false, none) := by
  have h1 := claim_C3_bird_rescue Game.default ⟨7, 0, 2⟩ defaultLevel rfl (by decide)
  have h2 := claim_C3_bird_rescue Game.default ⟨6, 0, 2⟩ defaultLevel rfl (by decide)
  obtain ⟨ha, hb⟩ := h1.1 0 (by decide)
  refine ⟨?_, hb, h2.2 (by decide)⟩
  rw [ha]
  norm_num [Game.default, List.set]
  decide

/-- Bevy `Timer` in `Once` mode, as used by the shared `ActionTimer`
resource: elapsed time clamps at the duration. -/
structure ActionTimer where
  elapsed : ℚ
  duration : ℚ
deriving DecidableEq, Repr

/-- Source `Timer::tick(delta)`: accumulate elapsed time, clamped at the
duration (`Once` mode does not wrap). -/
def ActionTimer.tick (t : ActionTimer) (dt : ℚ) : ActionTimer :=
  { t with elapsed := min (t.elapsed + dt) t.duration }

/-- Source `Timer::fraction`: elapsed over duration (elapsed is already
clamped, so this lies in `[0, 1]` for a positive duration). -/
def ActionTimer.fraction (t : ActionTimer) : ℚ := t.elapsed / t.duration

/-- Source `Timer::just_finished` as observed right after `tick dt`: the
timer reaches its duration on this very tick, not having been
finished before. -/
def ActionTimer.justFinishedAfter (t : ActionTimer) (dt : ℚ) : Bool :=
  decide (t.duration ≤ t.elapsed + dt) && !decide (t.duration ≤ t.elapsed)

/-- Exact-rational model of `bevy::Quat` (x, y, z, w components). -/
structure QuatQ where
  x : ℚ
  y : ℚ
  z : ℚ
  w : ℚ
deriving DecidableEq, Repr

/-- Source `Quat::IDENTITY`. -/
def qIdentity : QuatQ := ⟨0, 0, 0, 1⟩

/-- Truncation toward zero, the semantics of Rust's `f32 as i32` and
of `Vec3::as_ivec3` on exactly-represented values. -/
def truncQ (q : ℚ) : ℤ := q.num.tdiv q.den

/-- Source `Vec3::as_ivec3`: componentwise truncation toward zero. -/
def asIVec3 (v : Vec3Q) : IVec3 := ⟨truncQ v.x, truncQ v.y, truncQ v.z⟩

/-- One hazard carrying a `LogRoll` component during
`GameTurnInProgress`: its transform and the recorded start/target
translations. -/
structure LogRollEntity where
  translation : Vec3Q
  rotation : QuatQ
  start_position : Vec3Q
  target_position : Vec3Q
deriving DecidableEq, Repr

/-- One `Update` tick of `process_game_turn`: tick the shared timer,
lerp every rolling log toward its target, despawn (as a deferred
command, applied at the end of the tick) logs that fail the loose
board check once progress exceeds 90%, and on expiry snap every log
still in the query to its target with identity rotation and branch to
`PlayerFinishingJump` or `PlayerIdle` according to the action
tracker's jump flag. -/
def process_game_turn (g : Game) (is_jumping : Bool) (timer : ActionTimer) (dt : ℚ)
    (logs : List LogRollEntity) :
    ActionTimer × List LogRollEntity × Option GameState :=
  let t := timer.tick dt
  let progress := t.fraction
  let logs1 := logs.map fun l =>
    { l with translation := l.start_position.lerp l.target_position progress }
  let keep : LogRollEntity → Bool := fun l =>
    !(decide (progress > 9/10) && !(g.is_valid_board_pos (asIVec3 l.translation) Direction.West))
  let logs2 := logs1.filter keep
  if timer.justFinishedAfter dt then
    (t,
     logs2.map fun l => { l with translation := l.target_position, rotation := qIdentity },
     some (if is_jumping then GameState.PlayerFinishingJump else GameState.PlayerIdle))
  else
    (t, logs2, none)

/-- C5: whenever the game-turn countdown expires during
`GameTurnInProgress`, every hazard still active after the tick has its
translation set exactly to its recorded target and its rotation reset
to identity, and the requested next state is `PlayerFinishingJump`
when the in-progress action was a jump and `PlayerIdle` otherwise —
those are the only two successors on expiry. -/
theorem claim_C5_game_turn_expiry (g : Game) (is_jumping : Bool) (timer : ActionTimer)
    (dt : ℚ) (logs : List LogRollEntity)
    (hexp : timer.justFinishedAfter dt = true) :
    (∀ l ∈ (process_game_turn g is_jumping timer dt logs).2.1,
      l.translation = l.target_position ∧ l.rotation = qIdentity) ∧
    (process_game_turn g is_jumping timer dt logs).2.2 =
      some (if is_jumping then GameState.PlayerFinishingJump else GameState.PlayerIdle) ∧
    ((process_game_turn g is_jumping timer dt logs).2.2 = some GameState.PlayerFinishingJump ∨
     (process_game_turn g is_jumping timer dt logs).2.2 = some GameState.PlayerIdle) := by
  unfold process_game_turn
  rw [if_pos hexp]
  refine ⟨?_, rfl, ?_⟩
  · intro l hl
    simp only [List.mem_map] at hl
    obtain ⟨l0, _, rfl⟩ := hl
    exact ⟨rfl, rfl⟩
  · cases is_jumping <;> simp

/-- Witness for C5: a single rolling log on the default board, a
0.47-second timer expiring under a half-second tick; the log snaps to
its target `(3/2, 1/4, 10)` with identity rotation and, the tracker
not being in a jump, the next state is `PlayerIdle`. -/
theorem claim_C5_witness :
    (∀ l ∈ (process_game_turn Game.default false ⟨0, 47/100⟩ (1/2)
        [⟨⟨3/2, 1/4, 12⟩, qIdentity, ⟨3/2, 1/4, 12⟩, ⟨3/2, 1/4, 10⟩⟩]).2.1,
      l.translation = l.target_position ∧ l.rotation = qIdentity) ∧
    (process_game_turn Game.default false ⟨0, 47/100⟩ (1/2)
        [⟨⟨3/2, 1/4, 12⟩, qIdentity, ⟨3/2, 1/4, 12⟩, ⟨3/2, 1/4, 10⟩⟩]).2.2 =
      some (if false then GameState.PlayerFinishingJump else GameState.PlayerIdle) ∧
    ((process_game_turn Game.default false ⟨0, 47/100⟩ (1/2)
        [⟨⟨3/2, 1/4, 12⟩, qIdentity, ⟨3/2, 1/4, 12⟩, ⟨3/2, 1/4, 10⟩⟩]).2.2 =
        some GameState.PlayerFinishingJump ∨
     (process_game_turn Game.default false ⟨0, 47/100⟩ (1/2)
        [⟨⟨3/2, 1/4, 12⟩, qIdentity, ⟨3/2, 1/4, 12⟩, ⟨3/2, 1/4, 10⟩⟩]).2.2 =
        some GameState.PlayerIdle) :=
  claim_C5_game_turn_expiry Game.default false ⟨0, 47/100⟩ (1/2)
    [⟨⟨3/2, 1/4, 12⟩, qIdentity, ⟨3/2, 1/4, 12⟩, ⟨3/2, 1/4, 10⟩⟩]
    (by norm_num [ActionTimer.justFinishedAfter])

/-- The `PlayerMove` component: recorded start and target translations
of the in-progress player action. -/
structure PlayerMove where
  start_position : Vec3Q
  target_position : Vec3Q
deriving DecidableEq, Repr

/-- Source `ease_in_out_cubic` from `src/main.rs` (exact on rationals). -/
def ease_in_out_cubic (t : ℚ) : ℚ :=
  if t < 1/2 then 4 * t * t * t else 1 - (-2 * t + 2) ^ 3 / 2

/-- One `Update` tick of `process_player_action` for a player carrying
a `PlayerMove`: tick the shared timer, place the player at the eased
interpolation of start and target (plus, when jumping, a parabolic
arc offset `0.2 * sin(π * eased)`, passed in abstractly as `jumpArc`
since it is irrational), and on expiry snap the translation exactly
to the target, remove the `PlayerMove` (a deferred command) and
request `GameTurnInProgress`.  Returns
`(timer, translation, removedPlayerMove, requested state)`. -/
def process_player_action (timer : ActionTimer) (dt : ℚ) (is_jumping : Bool)
    (jumpArc : ℚ) (pm : PlayerMove) :
    ActionTimer × Vec3Q × Bool × Option GameState :=
  let t := timer.tick dt
  let eased := ease_in_out_cubic t.fraction
  let mid := pm.start_position.lerp pm.target_position eased
  let mid := if is_jumping then { mid with y := mid.y + jumpArc } else mid
  if timer.justFinishedAfter dt then
    (t, pm.target_position, true, some GameState.GameTurnInProgress)
  else
    (t, mid, false, none)

/-- Source `update_player_pos_after_jump`: whenever the player still carries
a `PlayerMove` (the removal command issued by `process_player_action`
is deferred, so the component is visible for the whole tick), persist
the truncated target position into `Game::player_pos` — there is no
check of the action tracker's jump flag in the source. -/
def update_player_pos_after_jump (g : Game) (pm : PlayerMove) : Game :=
  { g with player_pos := asIVec3 pm.target_position }

/-- The result of one `Update` tick of the chained
`(process_player_action, update_player_pos_after_jump)` systems
scheduled during `PlayerActionInProgress`. -/
structure PlayerActionTickResult where
  game : Game
  timer : ActionTimer
  translation : Vec3Q
  removedPlayerMove : Bool
  next : Option GameState

/-- The chained `PlayerActionInProgress` `Update` schedule:
`process_player_action` then `update_player_pos_after_jump`. -/
def playerActionUpdateTick (g : Game) (timer : ActionTimer) (dt : ℚ) (is_jumping : Bool)
    (jumpArc : ℚ) (pm : PlayerMove) : PlayerActionTickResult :=
  let r := process_player_action timer dt is_jumping jumpArc pm
  { game := update_player_pos_after_jump g pm
    timer := r.1
    translation := r.2.1
    removedPlayerMove := r.2.2.1
    next := r.2.2.2 }

/-- Counterexample to C6 as stated: a plain move (jump flag `false`)
from `(3, 1/2, 0)` to `(4, 1/2, 0)` on the default game.  On the
expiry tick the persisted `Game::player_pos` changes from `(3, 0, 0)`
to `(4, 0, 0)`, although the claim says it is unchanged after a plain
move — `update_player_pos_after_jump` runs for every action carrying
a `PlayerMove`, with no jump guard. -/
theorem claim_C6_counterexample :
    (playerActionUpdateTick Game.default ⟨0, 44/100⟩ 1 false 0
        ⟨⟨3, 1/2, 0⟩, ⟨4, 1/2, 0⟩⟩).game.player_pos = ⟨4, 0, 0⟩ ∧
    Game.default.player_pos = ⟨3, 0, 0⟩ ∧
    (⟨4, 0, 0⟩ : IVec3) ≠ (⟨3, 0, 0⟩ : IVec3) := by
  refine ⟨?_, rfl, by decide⟩
  show asIVec3 ⟨4, 1/2, 0⟩ = ⟨4, 0, 0⟩
  norm_num [asIVec3, truncQ]
  decide

/-- C6 (amended): during `PlayerActionInProgress`, on expiry of the
action countdown the player's transform is set exactly to the
recorded target position and `GameTurnInProgress` is requested; and
`Game::player_pos` is persisted as the truncated target position on
every tick a `PlayerMove` is present — for plain moves just as for
jump-starts (the source has no jump guard on the update). -/
theorem claim_C6_player_action_expiry (g : Game) (timer : ActionTimer) (dt : ℚ)
    (is_jumping : Bool) (jumpArc : ℚ) (pm : PlayerMove)
    (hexp : timer.justFinishedAfter dt = true) :
    (playerActionUpdateTick g timer dt is_jumping jumpArc pm).translation =
      pm.target_position ∧
    (playerActionUpdateTick g timer dt is_jumping jumpArc pm).next =
      some GameState.GameTurnInProgress ∧
    (playerActionUpdateTick g timer dt is_jumping jumpArc pm).game.player_pos =
      asIVec3 pm.target_position := by
  unfold playerActionUpdateTick process_player_action update_player_pos_after_jump
  rw [if_pos hexp]
  exact ⟨rfl, rfl, rfl⟩

/-- Witness for C6 (amended) at a concrete jump-start: the 0.39-second
jump timer expires under a half-second tick, the player snaps to the
raised target `(3, 3/2, 0)` and `player_pos` becomes its truncation
`(3, 1, 0)`. -/
theorem claim_C6_witness :
    (playerActionUpdateTick Game.default ⟨0, 39/100⟩ (1/2) true 0
        ⟨⟨3, 1/2, 0⟩, ⟨3, 3/2, 0⟩⟩).translation = ⟨3, 3/2, 0⟩ ∧
    (playerActionUpdateTick Game.default ⟨0, 39/100⟩ (1/2) true 0
        ⟨⟨3, 1/2, 0⟩, ⟨3, 3/2, 0⟩⟩).next = some GameState.GameTurnInProgress ∧
    (playerActionUpdateTick Game.default ⟨0, 39/100⟩ (1/2) true 0
        ⟨⟨3, 1/2, 0⟩, ⟨3, 3/2, 0⟩⟩).game.player_pos = asIVec3 ⟨3, 3/2, 0⟩ :=
  claim_C6_player_action_expiry Game.default ⟨0, 39/100⟩ (1/2) true 0
    ⟨⟨3, 1/2, 0⟩, ⟨3, 3/2, 0⟩⟩ (by norm_num [ActionTimer.justFinishedAfter])

/-- The session-level state `player_collision_handling_system` acts
on: the top-level app state and whether the player entity already
carries the `PlayerEnd` end-of-game timer tag. -/
structure SessionState where
  app : AppState
  player_tagged_end : Bool
deriving DecidableEq, Repr

/-- One `Update` tick of `player_collision_handling_system`
(scheduled with `run_if(in_state(AppState::InGame))`): outside
`InGame` the system does not run; inside, the debug suppression flag
short-circuits everything; otherwise any pending player-collision
notification tags the player with `PlayerEnd` (via `insert_if_new`,
so an existing tag is kept) and requests the `EndGame` transition.
Returns `(state, transitioned-to-EndGame?, tag-inserted?)`. -/
def player_collision_handling_system (skip_player_collision : Bool)
    (hasCollisionEvent : Bool) (st : SessionState) : SessionState × Bool × Bool :=
  if st.app = AppState.InGame then
    if skip_player_collision then (st, false, false)
    else if hasCollisionEvent then
      (⟨AppState.EndGame, true⟩, true, !st.player_tagged_end)
    else (st, false, false)
  else (st, false, false)

/-- Iterate `player_collision_handling_system` over a stream of ticks
(one Bool per tick: was a player-collision notification pending?),
accumulating how many `EndGame` transitions and how many `PlayerEnd`
tag insertions happened. -/
def collisionSession (skip : Bool) (ticks : List Bool) (st : SessionState) :
    SessionState × ℕ × ℕ :=
  match ticks with
  | [] => (st, 0, 0)
  | e :: rest =>
    let r := player_collision_handling_system skip e st
    let f := collisionSession skip rest r.1
    (f.1, (if r.2.1 then 1 else 0) + f.2.1, (if r.2.2 then 1 else 0) + f.2.2)

theorem collisionSession_absorbed (skip : Bool) (ticks : List Bool) (st : SessionState)
    (h : st.app ≠ AppState.InGame) : collisionSession skip ticks st = (st, 0, 0) := by
  induction ticks with
  | nil => rfl
  | cons e rest ih =>
    simp [collisionSession, player_collision_handling_system, if_neg h, ih]

/-- C4: starting a session (`InGame`, player untagged), for every
stream of pending-notification flags: with the debug suppression flag
set the handler changes nothing and never transitions or tags;
without it, the session transitions to `EndGame` and the player is
tagged with the end-of-game timer exactly once when any notification
arrives (and never otherwise), even if the overlap persists and
notifications repeat across many ticks. -/
theorem claim_C4_collision_handling_once (skip : Bool) (ticks : List Bool) :
    (skip = true →
      collisionSession true ticks ⟨AppState.InGame, false⟩ =
        (⟨AppState.InGame, false⟩, 0, 0)) ∧
    (skip = false →
      (collisionSession false ticks ⟨AppState.InGame, false⟩).2.1 =
        (if ticks.any id then 1 else 0) ∧
      (collisionSession false ticks ⟨AppState.InGame, false⟩).2.2 =
        (if ticks.any id then 1 else 0)) := by
  constructor
  · intro _
    induction ticks with
    | nil => rfl
    | cons e rest ih =>
      simp [collisionSession, player_collision_handling_system, ih]
  · intro _
    induction ticks with
    | nil => exact ⟨rfl, rfl⟩
    | cons e rest ih =>
      cases e with
      | false =>
        have hstep : player_collision_handling_system false false
            ⟨AppState.InGame, false⟩ = (⟨AppState.InGame, false⟩, false, false) := by
          decide
        simp only [collisionSession, hstep, List.any_cons, id, Bool.false_or]
        simpa using ih
      | true =>
        have hstep : player_collision_handling_system false true
            ⟨AppState.InGame, false⟩ = (⟨AppState.EndGame, true⟩, true, true) := by
          decide
        have habs := collisionSession_absorbed false rest ⟨AppState.EndGame, true⟩ (by decide)
        simp [collisionSession, hstep, habs]

/-- Witness for C4: three consecutive ticks with the Player/Log
overlap persisting (a pending notification every tick) produce
exactly one `EndGame` transition and one `PlayerEnd` tag. -/
theorem claim_C4_witness :
    (collisionSession false [true, true, true] ⟨AppState.InGame, false⟩).2.1 = 1 ∧
    (collisionSession false [true, true, true] ⟨AppState.InGame, false⟩).2.2 = 1 := by
  have h := (claim_C4_collision_handling_once false [true, true, true]).2 rfl
  simpa using h

/-- The simulation state visible to the `Update` systems that run
while the turn state is `GameState::Paused` (the app state is still
`AppState::InGame`, so every system gated only on
`run_if(in_state(AppState::InGame))` keeps running; the systems
scoped to the other `GameState` phases do not). -/
structure InGameWorld where
  app : AppState
  gameState : GameState
  prevState : Option GameState
  game : Game
  playerTranslation : Vec3Q
  logTranslations : List Vec3Q
  rotAngles : List (ℚ × ℚ)
  aabbs : List (Vec3Q × LLAabb3d)
  playerTaggedEnd : Bool
  skipCollision : Bool
  pendingCollision : Bool

/-- One `Update` tick taken while `GameState::Paused`: per the
schedule in `main`, the phase-scoped systems (input handling, player
action, game turn, log spawning/rolling, collision detection, bird
check) are suspended, but the `AppState::InGame` chain still runs:
`rotate_system` advances every `Rotate`-tagged transform by
`speed * dt`, `update_aabb_system` re-centres every AABB on its
entity's translation, and `player_collision_handling_system` consumes
any still-pending player-collision notification (unless the debug
suppression flag is set), tagging the player and requesting
`EndGame`; finally `toggle_pause` handles a pause-toggle press.
(The debug-flag toggle and the UI text updates, which touch no
simulation state, are omitted.) -/
def pausedTick (w : InGameWorld) (dt : ℚ) (pauseKeyPressed : Bool) : InGameWorld :=
  let w1 := { w with
    rotAngles := w.rotAngles.map fun p : ℚ × ℚ => (p.1, p.2 + p.1 * dt) }
  let w2 := { w1 with
    aabbs := w1.aabbs.map fun p : Vec3Q × LLAabb3d => (p.1, p.2.update_center p.1) }
  let w3 :=
    if w2.app = AppState.InGame then
      if w2.skipCollision then w2
      else if w2.pendingCollision then
        { w2 with app := AppState.EndGame, playerTaggedEnd := true, pendingCollision := false }
      else w2
    else w2
  if pauseKeyPressed then
    let r := toggle_pause w3.gameState w3.prevState
    { w3 with gameState := r.1, prevState := r.2 }
  else w3

/-- Counterexample to C8 as stated: a tick taken in `Paused` with a
player-collision notification still pending (written by the collision
scan on the tick the pause was requested) performs a collision-driven
session transition to `EndGame` — and `rotate_system` advances a
`Rotate`-tagged transform — although the claim says no per-tick
system other than the pause-toggle listener mutates any simulation
state while Paused. -/
theorem claim_C8_counterexample :
    (pausedTick
        ⟨AppState.InGame, GameState.Paused, some GameState.GameTurnInProgress, Game.default,
          ⟨3, 1/2, 0⟩, [], [(1, 0)], [], false, false, true⟩
        (1/100) false).app = AppState.EndGame ∧
    (pausedTick
        ⟨AppState.InGame, GameState.Paused, some GameState.GameTurnInProgress, Game.default,
          ⟨3, 1/2, 0⟩, [], [(1, 0)], [], false, false, true⟩
        (1/100) false).rotAngles = [(1, 1/100)] ∧
    AppState.EndGame ≠ AppState.InGame := by
  refine ⟨rfl, ?_, by decide⟩
  show [((1 : ℚ), (0 : ℚ) + 1 * (1/100))] = [(1, 1/100)]
  norm_num

/-- C8 (amended): while `Paused`, the phase-scoped per-tick systems
are suspended, so the `Game` resource (turn counter, bird map,
`player_pos`), the player translation and the hazard translations are
unchanged by a tick, and AABBs already centred on their entity keep
their value; but the always-on `InGame` systems still run: only when
no pending player-collision notification exists are the app state and
the end tag guaranteed unchanged, without a pause-toggle press the
turn state and the memo are untouched — and `rotate_system` keeps
advancing `Rotate`-tagged transforms regardless. -/
theorem claim_C8_paused_tick (w : InGameWorld) (dt : ℚ) (key : Bool) :
    ((pausedTick w dt key).game = w.game ∧
     (pausedTick w dt key).playerTranslation = w.playerTranslation ∧
     (pausedTick w dt key).logTranslations = w.logTranslations) ∧
    ((∀ p ∈ w.aabbs, p.2.update_center p.1 = p.2) →
      (pausedTick w dt key).aabbs = w.aabbs) ∧
    (w.pendingCollision = false →
      (pausedTick w dt key).app = w.app ∧
      (pausedTick w dt key).playerTaggedEnd = w.playerTaggedEnd) ∧
    (key = false →
      (pausedTick w dt key).gameState = w.gameState ∧
      (pausedTick w dt key).prevState = w.prevState) := by
  refine ⟨?_, ?_, ?_, ?_⟩
  · unfold pausedTick
    dsimp only
    split_ifs <;> exact ⟨rfl, rfl, rfl⟩
  · intro hsync
    have hgen : ∀ l : List (Vec3Q × LLAabb3d), (∀ p ∈ l, p.2.update_center p.1 = p.2) →
        l.map (fun p : Vec3Q × LLAabb3d => (p.1, p.2.update_center p.1)) = l := by
      intro l hl
      induction l with
      | nil => rfl
      | cons p t ih =>
        simp only [List.map_cons, hl p (List.mem_cons_self p t),
          ih fun q hq => hl q (List.mem_cons_of_mem p hq)]
    have hmap := hgen w.aabbs hsync
    unfold pausedTick
    dsimp only
    split_ifs <;> exact hmap
  · intro hpc
    unfold pausedTick
    dsimp only
    split_ifs <;> first | exact ⟨rfl, rfl⟩ | simp_all
  · intro hk
    subst hk
    unfold pausedTick
    dsimp only
    split_ifs <;> first | exact ⟨rfl, rfl⟩ | simp_all

/-- Witness for C8 (amended): a quiescent paused world (no pending
notification, synced AABB, no key press) keeps its game resource,
translations and turn state across a tick. -/
theorem claim_C8_witness :
    ((pausedTick
        ⟨AppState.InGame, GameState.Paused, some GameState.PlayerIdle, Game.default,
          ⟨3, 1/2, 0⟩, [⟨3/2, 1/4, 12⟩], [(1, 0)],
          [(⟨3, 1/2, 0⟩, LLAabb3d.new ⟨3, 1/2, 0⟩ ⟨1/4, 11/20, 1/4⟩)], false, false, false⟩
        (1/100) false).game = Game.default ∧
     (pausedTick
        ⟨AppState.InGame, GameState.Paused, some GameState.PlayerIdle, Game.default,
          ⟨3, 1/2, 0⟩, [⟨3/2, 1/4, 12⟩], [(1, 0)],
          [(⟨3, 1/2, 0⟩, LLAabb3d.new ⟨3, 1/2, 0⟩ ⟨1/4, 11/20, 1/4⟩)], false, false, false⟩
        (1/100) false).playerTranslation = ⟨3, 1/2, 0⟩ ∧
     (pausedTick
        ⟨AppState.InGame, GameState.Paused, some GameState.PlayerIdle, Game.default,
          ⟨3, 1/2, 0⟩, [⟨3/2, 1/4, 12⟩], [(1, 0)],
          [(⟨3, 1/2, 0⟩, LLAabb3d.new ⟨3, 1/2, 0⟩ ⟨1/4, 11/20, 1/4⟩)], false, false, false⟩
        (1/100) false).logTranslations = [⟨3/2, 1/4, 12⟩]) ∧
    (pausedTick
        ⟨AppState.InGame, GameState.Paused, some GameState.PlayerIdle, Game.default,
          ⟨3, 1/2, 0⟩, [⟨3/2, 1/4, 12⟩], [(1, 0)],
          [(⟨3, 1/2, 0⟩, LLAabb3d.new ⟨3, 1/2, 0⟩ ⟨1/4, 11/20, 1/4⟩)], false, false, false⟩
        (1/100) false).gameState = GameState.Paused := by
  have h := claim_C8_paused_tick
    ⟨AppState.InGame, GameState.Paused, some GameState.PlayerIdle, Game.default,
      ⟨3, 1/2, 0⟩, [⟨3/2, 1/4, 12⟩], [(1, 0)],
      [(⟨3, 1/2, 0⟩, LLAabb3d.new ⟨3, 1/2, 0⟩ ⟨1/4, 11/20, 1/4⟩)], false, false, false⟩
    (1/100) false
  exact ⟨h.1, (h.2.2.2 rfl).1⟩
